import Mathlib

/-!
Verification of the Chromox beat-detection service
(`backend/beat_service/server.py`) against its design specification.

The core pipeline is embedded shallowly:
* onset strengths, times and tempi are exact rationals (`ℚ`), idealising the
  Python floats;
* `np.mean` / `np.std` (population standard deviation) are `qMean` / `qStd`,
  the latter landing in `ℝ` because of the square root;
* Python's `round(x, n)` is modelled as rounding to the nearest multiple of
  `10 ^ (-n)` (Mathlib's `round`; ties do not arise in any claim);
* the external collaborators (file system, audio decoding, `librosa`'s
  onset/beat primitives) enter `analyze_audio` as explicit inputs: an
  `AudioFile` record and a `pipeline : Except String ProviderOutput` standing
  for the body of the `try:` block up to the provider calls.
-/

namespace Chromox

/-- `np.mean` of a list of rationals (`0` on the empty list, which every
call site below guards against, as the source does). -/
def qMean (l : List ℚ) : ℚ := l.sum / l.length

/-- Population variance, matching `np.std(l) ^ 2 = mean((x - mean l)^2)`. -/
def qVar (l : List ℚ) : ℚ := ((l.map (fun x => (x - qMean l) ^ 2)).sum) / l.length

/-- `np.std`: population standard deviation, as a real number. -/
noncomputable def qStd (l : List ℚ) : ℝ := Real.sqrt ((qVar l : ℚ) : ℝ)

/-- `np.diff`: successive differences of a list. -/
def diffs : List ℚ → List ℚ
  | [] => []
  | [_] => []
  | a :: b :: rest => (b - a) :: diffs (b :: rest)

/-- `librosa.frames_to_time(frames, sr=sr, hop_length=hop)`:
`time = frame_index * hop_length / sample_rate`. -/
def framesToTime (frames : List ℕ) (sr : ℚ) (hop_length : ℚ) : List ℚ :=
  frames.map (fun (f : ℕ) => (f : ℚ) * hop_length / sr)

/-- Python's `round(x, 3)` on the real result of the confidence formula. -/
noncomputable def roundTo3 (x : ℝ) : ℝ := ((round (x * 1000) : ℤ) : ℝ) / 1000

/-- Python's `round(x, n)` on a rational. -/
def roundToQ (n : ℕ) (x : ℚ) : ℚ := ((round (x * 10 ^ n) : ℤ) : ℚ) / 10 ^ n

/-- `onset_env[beat_frames[beat_frames < len(onset_env)]]`: the onset-strength
values at the beat positions, after filtering the beat frames to indices
within the bounds of the onset curve. -/
def beatStrengths (onset_env : List ℚ) (beat_frames : List ℕ) : List ℚ :=
  (beat_frames.filter (fun f => f < onset_env.length)).map (fun f => onset_env.getD f 0)

/-- `compute_confidence(onset_env, beat_frames, sr, hop_length)` from
`server.py`, line for line:

* fewer than 4 beat frames → `0.3`;
* fewer than 2 in-bounds beat strengths → `0.4`;
* zero mean beat strength → `0.3`;
* otherwise combine the strength CV and the inter-beat-interval CV
  (computed from **all** beat frames, not the bounds-filtered ones) into
  `round(0.4 * strength_subscore + 0.6 * interval_subscore, 3)`. -/
noncomputable def compute_confidence (onset_env : List ℚ) (beat_frames : List ℕ)
    (sr : ℚ) (hop_length : ℚ) : ℝ :=
  if beat_frames.length < 4 then 0.3
  else
    let beat_strengths := beatStrengths onset_env beat_frames
    if beat_strengths.length < 2 then 0.4
    else
      let mean_strength := qMean beat_strengths
      if mean_strength = 0 then 0.3
      else
        let cv : ℝ := qStd beat_strengths / ((mean_strength : ℚ) : ℝ)
        let beat_times := framesToTime beat_frames sr hop_length
        let interval_cv : ℝ :=
          if 1 < beat_times.length then
            if 0 < qMean (diffs beat_times) then
              qStd (diffs beat_times) / ((qMean (diffs beat_times) : ℚ) : ℝ)
            else 1
          else 1
        let strength_confidence : ℝ := max 0.2 (min 1 (1 - cv))
        let interval_confidence : ℝ := max 0.2 (min 1 (1 - interval_cv))
        roundTo3 (strength_confidence * 0.4 + interval_confidence * 0.6)

/-- `estimate_downbeats(beats, bpm, sr, hop_length)` from `server.py`:

* fewer than 4 beats → `beats[:1].tolist() if len(beats) > 0 else []`
  (note: the raw frame indices, cast to float, **not** converted to times);
* otherwise the beat times at indices `range(0, len(beat_times), 4)`,
  guarded by `i < len(beat_times)` as in the comprehension.  The `bpm`
  argument is accepted but unused, as in the source. -/
def estimate_downbeats (beats : List ℕ) (bpm : ℚ) (sr : ℚ) (hop_length : ℚ) : List ℚ :=
  if beats.length < 4 then
    if 0 < beats.length then (beats.take 1).map (fun (f : ℕ) => (f : ℚ)) else []
  else
    let beat_times := framesToTime beats sr hop_length
    let downbeat_indices := List.range' 0 ((beat_times.length + 3) / 4) 4
    (downbeat_indices.filter (fun i => i < beat_times.length)).map
      (fun i => beat_times.getD i 0)

/-! ## The `/analyze` boundary (`analyze_audio`)

The file system and the decoding/DSP pipeline are external collaborators.
An `AudioFile` carries what the boundary checks inspect (`Path.exists()` and
`Path.suffix`), and the whole guarded `try:` body up to the provider calls is
an `Except String ProviderOutput`: `ok` carries the values the provider
produced (`duration`, `onset_env`, the raw `tempo`, `beat_frames`), `error`
carries the exception message of a failed decode/analysis. -/

/-- The tempo value returned by `librosa.beat.beat_track`: either a scalar
or a collection, depending on the librosa version (`hasattr(tempo, '__len__')`
distinguishes the two in the source). -/
inductive RawTempo where
  | scalar (t : ℚ)
  | arr (ts : List ℚ)
  deriving DecidableEq

/-- `bpm = float(tempo[0]) if hasattr(tempo, '__len__') else float(tempo)`.
For a collection, element 0 is taken (the provider contract only ever
produces length-1 collections; an empty collection would raise inside the
`try:` block, which the abstract `pipeline` input already accounts for). -/
def normalizeTempo : RawTempo → ℚ
  | .scalar t => t
  | .arr ts => ts.headD 0

/-- What the boundary checks see of the request's audio file. -/
structure AudioFile where
  present : Bool
  path : String
  suffix : String

/-- What the external decode/DSP provider produces inside the `try:` block. -/
structure ProviderOutput where
  duration : ℚ
  onset_env : List ℚ
  tempo : RawTempo
  beat_frames : List ℕ

/-- The three transport-level failures of the service
(HTTP 404, 400 and 500 respectively). -/
inductive AnalyzeError where
  | notFound (detail : String)
  | unsupportedFormat (detail : String)
  | analysisFailure (detail : String)
  deriving DecidableEq

/-- The `BeatAnalysisResponse` model of the service. -/
structure BeatAnalysisResponse where
  bpm : ℚ
  confidence : ℝ
  beats : List ℚ
  downbeats : List ℚ
  duration : ℚ

/-- ASCII lowercase of one character, for Python's `str.lower()`. -/
def lowerChar (c : Char) : Char :=
  if c.isUpper then Char.ofNat (c.toNat + 32) else c

/-- Python's `str.lower()` on the (ASCII) file extension. -/
def lowerString (s : String) : String := ⟨s.data.map lowerChar⟩

/-- `['.wav', '.mp3', '.flac', '.ogg', '.m4a', '.aac']`. -/
def allowedExtensions : List String := [".wav", ".mp3", ".flac", ".ogg", ".m4a", ".aac"]

/-- The successful body of `analyze_audio`: normalize the tempo, convert beat
frames to times, score confidence, estimate downbeats, and round every field
as the source does (`sr = 22050`, `hop_length = 512`). -/
noncomputable def assembleResponse (p : ProviderOutput) : BeatAnalysisResponse :=
  let sr : ℚ := 22050
  let hop_length : ℚ := 512
  let bpm := normalizeTempo p.tempo
  let beat_times := framesToTime p.beat_frames sr hop_length
  let confidence := compute_confidence p.onset_env p.beat_frames sr hop_length
  let downbeats := estimate_downbeats p.beat_frames bpm sr hop_length
  { bpm := roundToQ 2 bpm
    confidence := confidence
    beats := beat_times.map (roundToQ 4)
    downbeats := downbeats.map (roundToQ 4)
    duration := roundToQ 3 p.duration }

/-- `analyze_audio` from `server.py`:

* `not audio_path.exists()` → 404 `NotFound`;
* `not audio_path.suffix.lower() in [...]` → 400 `UnsupportedFormat`
  (both checked before the `try:` block, hence before any decode);
* a failure anywhere in the `try:` body → 500 `AnalysisFailure`;
* otherwise the fully assembled response. -/
noncomputable def analyze_audio (file : AudioFile)
    (pipeline : Except String ProviderOutput) : Except AnalyzeError BeatAnalysisResponse :=
  if file.present = false then
    .error (.notFound ("Audio file not found: " ++ file.path))
  else if allowedExtensions.contains (lowerString file.suffix) = false then
    .error (.unsupportedFormat ("Unsupported audio format: " ++ file.suffix))
  else
    match pipeline with
    | .error e => .error (.analysisFailure ("Analysis failed: " ++ e))
    | .ok p => .ok (assembleResponse p)

/-! ## Spec-side definitions (§4.2 of the specification)

These are written from the specification's wording, to be compared with
`compute_confidence` above. -/

/-- `clamp(x, 0.2, 1.0)` as used by both sub-scores of §4.2. -/
noncomputable def clampSub (x : ℝ) : ℝ := max 0.2 (min 1 x)

/-- §4.2 strength consistency: coefficient of variation of the
onset-strength values at the bounds-filtered beat positions. -/
noncomputable def cvStrength (onset_env : List ℚ) (beat_frames : List ℕ) : ℝ :=
  qStd (beatStrengths onset_env beat_frames) /
    ((qMean (beatStrengths onset_env beat_frames) : ℚ) : ℝ)

/-- §4.2 interval consistency: convert beat frames to times; with fewer
than 2 beat times the CV is `1.0`; otherwise it is `stddev(gaps)/mean(gaps)`,
taken as `1.0` when the mean gap is not positive. -/
noncomputable def cvInterval (beat_frames : List ℕ) (sr : ℚ) (hop_length : ℚ) : ℝ :=
  let ts := framesToTime beat_frames sr hop_length
  if ts.length < 2 then 1
  else if 0 < qMean (diffs ts) then
    qStd (diffs ts) / ((qMean (diffs ts) : ℚ) : ℝ)
  else 1

/-- §4.2 final confidence:
`round(0.4 * strength_subscore + 0.6 * interval_subscore, 3)`. -/
noncomputable def confSpec (onset_env : List ℚ) (beat_frames : List ℕ)
    (sr : ℚ) (hop_length : ℚ) : ℝ :=
  roundTo3 (0.4 * clampSub (1 - cvStrength onset_env beat_frames) +
    0.6 * clampSub (1 - cvInterval beat_frames sr hop_length))

/-! ## Helper lemmas -/

lemma le_clamp (x : ℝ) : (0.2 : ℝ) ≤ max 0.2 (min 1 x) := le_max_left _ _

lemma clamp_le_one (x : ℝ) : max 0.2 (min 1 x) ≤ 1 :=
  max_le (by norm_num) (min_le_left _ _)

lemma combo_bounds {a b : ℝ} (ha1 : (0.2 : ℝ) ≤ a) (ha2 : a ≤ 1)
    (hb1 : (0.2 : ℝ) ≤ b) (hb2 : b ≤ 1) :
    (0.2 : ℝ) ≤ a * 0.4 + b * 0.6 ∧ a * 0.4 + b * 0.6 ≤ 1 := by
  constructor <;> nlinarith

lemma roundTo3_bounds {x : ℝ} (hl : (0.2 : ℝ) ≤ x) (hu : x ≤ 1) :
    (0.2 : ℝ) ≤ roundTo3 x ∧ roundTo3 x ≤ 1 := by
  unfold roundTo3
  rw [round_eq]
  have h1 : (200 : ℤ) ≤ ⌊x * 1000 + 1 / 2⌋ := by
    rw [Int.le_floor]; push_cast; linarith
  have h2 : ⌊x * 1000 + 1 / 2⌋ ≤ 1000 := by
    have hlt : ⌊x * 1000 + 1 / 2⌋ < 1001 := by
      rw [Int.floor_lt]; push_cast; linarith
    omega
  have h1' : (200 : ℝ) ≤ (⌊x * 1000 + 1 / 2⌋ : ℤ) := by exact_mod_cast h1
  have h2' : ((⌊x * 1000 + 1 / 2⌋ : ℤ) : ℝ) ≤ 1000 := by exact_mod_cast h2
  constructor <;> [linarith; linarith]

/-! ## Claims -/

/-- Claim C1 (code bug): the spec says that for 1–3 beat frames the downbeat
estimator returns the first beat's **time** (`frame * hop / sr`); the code's
short branch `beats[:1].tolist()` instead returns the first beat's raw frame
index.  At `BeatFrames = [10]`, `sr = 22050`, `hop = 512` the code yields
`[10]`, while the first beat's time is `5120 / 22050 ≈ 0.232`.  The empty
case does return the empty sequence as claimed. -/
theorem estimate_downbeats_short_branch_returns_frame_index :
    estimate_downbeats [] 120 22050 512 = [] ∧
    estimate_downbeats [10] 120 22050 512 = [10] ∧
    framesToTime [10] 22050 512 = [5120 / 22050] ∧
    (10 : ℚ) ≠ 5120 / 22050 :=
  ⟨by decide, by norm_num [estimate_downbeats], by norm_num [framesToTime], by norm_num⟩

/-- Claim C2 (code bug): the assembled response at a single detected beat
frame `[10]` has `downbeats = [10]` (the raw frame index, see C1) but
`beats = [0.2322]`, so `downbeat_times` is **not** a subsequence of
`beat_times`, contradicting the spec's invariant. -/
theorem downbeats_not_sublist_of_beats_at_single_beat :
    (assembleResponse ⟨1, [1], .scalar 120, [10]⟩).downbeats = [10] ∧
    (assembleResponse ⟨1, [1], .scalar 120, [10]⟩).beats = [2322 / 10000] ∧
    ¬ List.Sublist (assembleResponse ⟨1, [1], .scalar 120, [10]⟩).downbeats
      (assembleResponse ⟨1, [1], .scalar 120, [10]⟩).beats := by
  have hd : (assembleResponse ⟨1, [1], .scalar 120, [10]⟩).downbeats = [10] := by
    norm_num [assembleResponse, estimate_downbeats, normalizeTempo, roundToQ, round_eq]
  have hb : (assembleResponse ⟨1, [1], .scalar 120, [10]⟩).beats = [2322 / 10000] := by
    norm_num [assembleResponse, framesToTime, roundToQ, round_eq]
  refine ⟨hd, hb, ?_⟩
  rw [hd, hb]
  rw [List.singleton_sublist, List.mem_singleton]
  norm_num

/-- Claim C6: the confidence scorer is total on every input (it is a Lean
function) and its value always lies in `[0.2, 1.0]`: the three edge branches
return `0.3`, `0.4` and `0.3`, and the combined branch is a rounded convex
combination of two values clamped into `[0.2, 1.0]`.  Every division in the
source is behind an edge check, which the shallow embedding reflects by the
`if` guards surrounding each quotient. -/
theorem compute_confidence_range (onset_env : List ℚ) (beat_frames : List ℕ)
    (sr : ℚ) (hop_length : ℚ) :
    (0.2 : ℝ) ≤ compute_confidence onset_env beat_frames sr hop_length ∧
    compute_confidence onset_env beat_frames sr hop_length ≤ 1 := by
  simp only [compute_confidence]
  split_ifs
  · norm_num
  · norm_num
  · norm_num
  · exact roundTo3_bounds
      (combo_bounds (le_clamp _) (clamp_le_one _) (le_clamp _) (clamp_le_one _)).1
      (combo_bounds (le_clamp _) (clamp_le_one _) (le_clamp _) (clamp_le_one _)).2
  · exact roundTo3_bounds
      (combo_bounds (le_clamp _) (clamp_le_one _) (le_clamp _) (clamp_le_one _)).1
      (combo_bounds (le_clamp _) (clamp_le_one _) (le_clamp _) (clamp_le_one _)).2
  · exact roundTo3_bounds
      (combo_bounds (le_clamp _) (clamp_le_one _) (le_clamp _) (clamp_le_one _)).1
      (combo_bounds (le_clamp _) (clamp_le_one _) (le_clamp _) (clamp_le_one _)).2

/-- Claim C8: the orchestrator normalizes the provider's raw tempo to a
single float in both return shapes (`float(tempo[0])` for a length-1
collection, `float(tempo)` for a scalar), and the assembled response rounds
the bpm to 2 decimals, the beat and downbeat times to 4 decimals, and the
duration to 3 decimals. -/
theorem tempo_normalization_and_rounding :
    (∀ t : ℚ, normalizeTempo (RawTempo.scalar t) = t) ∧
    (∀ t : ℚ, normalizeTempo (RawTempo.arr [t]) = t) ∧
    (∀ p : ProviderOutput,
      (assembleResponse p).bpm = roundToQ 2 (normalizeTempo p.tempo) ∧
      (assembleResponse p).beats =
        (framesToTime p.beat_frames 22050 512).map (roundToQ 4) ∧
      (assembleResponse p).downbeats =
        (estimate_downbeats p.beat_frames (normalizeTempo p.tempo) 22050 512).map
          (roundToQ 4) ∧
      (assembleResponse p).duration = roundToQ 3 p.duration) :=
  ⟨fun _ => rfl, fun _ => rfl, fun _ => ⟨rfl, rfl, rfl, rfl⟩⟩

/-- The combined-score branch of `compute_confidence`, written with the
named sub-score definitions: once the three edge checks fail, the result is
the rounded weighted sum of the two clamped sub-scores, the strength CV
taken over the bounds-filtered beat strengths and the interval CV over the
times of **all** beat frames. -/
lemma compute_confidence_main_eq (onset_env : List ℚ) (beat_frames : List ℕ)
    (sr : ℚ) (hop_length : ℚ)
    (h1 : 4 ≤ beat_frames.length)
    (h2 : 2 ≤ (beatStrengths onset_env beat_frames).length)
    (h3 : qMean (beatStrengths onset_env beat_frames) ≠ 0) :
    compute_confidence onset_env beat_frames sr hop_length =
      roundTo3 (clampSub (1 - cvStrength onset_env beat_frames) * 0.4 +
        clampSub (1 - cvInterval beat_frames sr hop_length) * 0.6) := by
  have hiv :
      (if 1 < (framesToTime beat_frames sr hop_length).length then
        (if 0 < qMean (diffs (framesToTime beat_frames sr hop_length)) then
          qStd (diffs (framesToTime beat_frames sr hop_length)) /
            ((qMean (diffs (framesToTime beat_frames sr hop_length)) : ℚ) : ℝ)
        else 1)
      else (1 : ℝ)) = cvInterval beat_frames sr hop_length := by
    simp only [cvInterval]
    by_cases hl : 1 < (framesToTime beat_frames sr hop_length).length
    · rw [if_pos hl,
        if_neg (show ¬ (framesToTime beat_frames sr hop_length).length < 2 from by omega)]
    · rw [if_neg hl,
        if_pos (show (framesToTime beat_frames sr hop_length).length < 2 from by omega)]
  simp only [compute_confidence]
  rw [if_neg (by omega), if_neg (by omega), if_neg h3, hiv]
  unfold clampSub cvStrength
  rfl

/-- Claim C3: past the three edge checks, the returned confidence is exactly
the specification's formula `round(0.4 * clamp(1 - cv_strength, 0.2, 1.0)
+ 0.6 * clamp(1 - cv_interval, 0.2, 1.0), 3)` with `cv_strength` the CV of
the onset strengths at the bounds-filtered beat positions and `cv_interval`
the CV of the successive inter-beat time gaps (taken as `1.0` with fewer
than 2 beat times or a non-positive mean gap). -/
theorem compute_confidence_matches_spec_formula (onset_env : List ℚ)
    (beat_frames : List ℕ) (sr : ℚ) (hop_length : ℚ)
    (h1 : 4 ≤ beat_frames.length)
    (h2 : 2 ≤ (beatStrengths onset_env beat_frames).length)
    (h3 : qMean (beatStrengths onset_env beat_frames) ≠ 0) :
    compute_confidence onset_env beat_frames sr hop_length =
      confSpec onset_env beat_frames sr hop_length := by
  rw [compute_confidence_main_eq onset_env beat_frames sr hop_length h1 h2 h3]
  unfold confSpec
  congr 1
  ring

theorem compute_confidence_matches_spec_formula_witness :
    4 ≤ ([0, 1, 2, 3] : List ℕ).length ∧
    2 ≤ (beatStrengths [1, 1, 1, 1] [0, 1, 2, 3]).length ∧
    qMean (beatStrengths [1, 1, 1, 1] [0, 1, 2, 3]) ≠ 0 ∧
    compute_confidence [1, 1, 1, 1] [0, 1, 2, 3] 22050 512 =
      confSpec [1, 1, 1, 1] [0, 1, 2, 3] 22050 512 := by
  have hm : qMean (beatStrengths [1, 1, 1, 1] [0, 1, 2, 3]) ≠ 0 := by
    rw [show beatStrengths [1, 1, 1, 1] [0, 1, 2, 3] = [1, 1, 1, 1] from by decide]
    norm_num [qMean]
  exact ⟨by decide, by decide, hm,
    compute_confidence_matches_spec_formula _ _ _ _ (by decide) (by decide) hm⟩

/-- Claim C10: in the combined-score path, the interval sub-score is
computed from **all** beat frames — `cvInterval` below is applied to the
unfiltered `beat_frames`, so frames at or beyond the onset-curve length,
which the bounds filter removed from the strength sub-score
(`cvStrength` only sees `beatStrengths onset_env beat_frames`), still
contribute their inter-beat gaps. -/
theorem interval_cv_uses_unfiltered_frames (onset_env : List ℚ)
    (beat_frames : List ℕ) (sr : ℚ) (hop_length : ℚ)
    (h1 : 4 ≤ beat_frames.length)
    (h2 : 2 ≤ (beatStrengths onset_env beat_frames).length)
    (h3 : qMean (beatStrengths onset_env beat_frames) ≠ 0) :
    compute_confidence onset_env beat_frames sr hop_length =
      roundTo3 (clampSub (1 - cvStrength onset_env beat_frames) * 0.4 +
        clampSub (1 - cvInterval beat_frames sr hop_length) * 0.6) :=
  compute_confidence_main_eq onset_env beat_frames sr hop_length h1 h2 h3

theorem interval_cv_uses_unfiltered_frames_witness :
    4 ≤ ([0, 1, 2, 3, 100] : List ℕ).length ∧
    2 ≤ (beatStrengths [1, 1, 1, 1] [0, 1, 2, 3, 100]).length ∧
    qMean (beatStrengths [1, 1, 1, 1] [0, 1, 2, 3, 100]) ≠ 0 ∧
    beatStrengths [1, 1, 1, 1] [0, 1, 2, 3, 100] = [1, 1, 1, 1] ∧
    (framesToTime [0, 1, 2, 3, 100] 22050 512).length = 5 ∧
    compute_confidence [1, 1, 1, 1] [0, 1, 2, 3, 100] 22050 512 =
      roundTo3 (clampSub (1 - cvStrength [1, 1, 1, 1] [0, 1, 2, 3, 100]) * 0.4 +
        clampSub (1 - cvInterval [0, 1, 2, 3, 100] 22050 512) * 0.6) := by
  have hm : qMean (beatStrengths [1, 1, 1, 1] [0, 1, 2, 3, 100]) ≠ 0 := by
    rw [show beatStrengths [1, 1, 1, 1] [0, 1, 2, 3, 100] = [1, 1, 1, 1] from by decide]
    norm_num [qMean]
  exact ⟨by decide, by decide, hm, by decide, by decide,
    interval_cv_uses_unfiltered_frames _ _ _ _ (by decide) (by decide) hm⟩

/-- Claim C4: the three edge checks, in order, with first match winning:
fewer than 4 beat frames → `0.3` (whatever the onset curve holds); at least
4 frames but fewer than 2 in-bounds beat strengths → `0.4`; at least 2
in-bounds strengths with mean exactly `0` → `0.3`. -/
theorem compute_confidence_edge_policy (onset_env : List ℚ)
    (beat_frames : List ℕ) (sr : ℚ) (hop_length : ℚ) :
    (beat_frames.length < 4 →
      compute_confidence onset_env beat_frames sr hop_length = 0.3) ∧
    (4 ≤ beat_frames.length → (beatStrengths onset_env beat_frames).length < 2 →
      compute_confidence onset_env beat_frames sr hop_length = 0.4) ∧
    (4 ≤ beat_frames.length → 2 ≤ (beatStrengths onset_env beat_frames).length →
      qMean (beatStrengths onset_env beat_frames) = 0 →
      compute_confidence onset_env beat_frames sr hop_length = 0.3) := by
  refine ⟨fun h => ?_, fun h1 h2 => ?_, fun h1 h2 h3 => ?_⟩
  · simp only [compute_confidence]; rw [if_pos h]
  · simp only [compute_confidence]; rw [if_neg (by omega), if_pos h2]
  · simp only [compute_confidence]
    rw [if_neg (by omega), if_neg (by omega), if_pos h3]

theorem compute_confidence_edge_policy_witness :
    (([1, 2, 3] : List ℕ).length < 4 ∧
      compute_confidence [5, 5, 5] [1, 2, 3] 22050 512 = 0.3) ∧
    (4 ≤ ([0, 1, 2, 3] : List ℕ).length ∧
      (beatStrengths ([] : List ℚ) [0, 1, 2, 3]).length < 2 ∧
      compute_confidence [] [0, 1, 2, 3] 22050 512 = 0.4) ∧
    (4 ≤ ([0, 1, 2, 3] : List ℕ).length ∧
      2 ≤ (beatStrengths [0, 0, 0, 0] [0, 1, 2, 3]).length ∧
      qMean (beatStrengths [0, 0, 0, 0] [0, 1, 2, 3]) = 0 ∧
      compute_confidence [0, 0, 0, 0] [0, 1, 2, 3] 22050 512 = 0.3) := by
  have hm : qMean (beatStrengths [0, 0, 0, 0] [0, 1, 2, 3]) = 0 := by
    rw [show beatStrengths [0, 0, 0, 0] [0, 1, 2, 3] = [0, 0, 0, 0] from by decide]
    norm_num [qMean]
  exact ⟨⟨by decide, (compute_confidence_edge_policy _ _ _ _).1 (by decide)⟩,
    ⟨by decide, by decide,
      (compute_confidence_edge_policy _ _ _ _).2.1 (by decide) (by decide)⟩,
    ⟨by decide, by decide, hm,
      (compute_confidence_edge_policy _ _ _ _).2.2 (by decide) (by decide) hm⟩⟩

/-- Claim C5: with at least 4 beat frames, the downbeat estimator converts
all beat frames to times and returns exactly the beat times at indices
`0, 4, 8, …`: the result has `⌈len/4⌉` entries and its `j`-th entry is the
beat time at index `4 * j`, preserving the original order. -/
theorem estimate_downbeats_stride4 (beats : List ℕ) (bpm : ℚ)
    (sr : ℚ) (hop_length : ℚ) (h : 4 ≤ beats.length) :
    (estimate_downbeats beats bpm sr hop_length).length = (beats.length + 3) / 4 ∧
    ∀ j, j < (beats.length + 3) / 4 →
      (estimate_downbeats beats bpm sr hop_length).getD j 0 =
        (framesToTime beats sr hop_length).getD (4 * j) 0 := by
  have hts : (framesToTime beats sr hop_length).length = beats.length := by
    simp [framesToTime]
  have hfil :
      (List.range' 0 (((framesToTime beats sr hop_length).length + 3) / 4) 4).filter
        (fun i => decide (i < (framesToTime beats sr hop_length).length)) =
      List.range' 0 (((framesToTime beats sr hop_length).length + 3) / 4) 4 := by
    apply List.filter_eq_self.mpr
    intro a ha
    rw [List.mem_range'] at ha
    obtain ⟨i, hi, rfl⟩ := ha
    simp only [decide_eq_true_eq]
    omega
  simp only [estimate_downbeats]
  rw [if_neg (by omega), hfil]
  refine ⟨?_, ?_⟩
  · rw [List.length_map, List.length_range', hts]
  · intro j hj
    have hj1 : j <
        ((List.range' 0 (((framesToTime beats sr hop_length).length + 3) / 4) 4).map
          (fun i => (framesToTime beats sr hop_length).getD i 0)).length := by
      rw [List.length_map, List.length_range']
      omega
    rw [List.getD_eq_getElem _ _ hj1, List.getElem_map]
    congr 1
    rw [List.getElem_range']
    omega

theorem estimate_downbeats_stride4_witness :
    4 ≤ ([10, 20, 30, 40, 50, 60, 70, 80] : List ℕ).length ∧
    ((estimate_downbeats [10, 20, 30, 40, 50, 60, 70, 80] 120 22050 512).length =
        (([10, 20, 30, 40, 50, 60, 70, 80] : List ℕ).length + 3) / 4 ∧
      ∀ j, j < (([10, 20, 30, 40, 50, 60, 70, 80] : List ℕ).length + 3) / 4 →
        (estimate_downbeats [10, 20, 30, 40, 50, 60, 70, 80] 120 22050 512).getD j 0 =
          (framesToTime [10, 20, 30, 40, 50, 60, 70, 80] 22050 512).getD (4 * j) 0) ∧
    estimate_downbeats [10, 20, 30, 40, 50, 60, 70, 80] 120 22050 512 =
      [5120 / 22050, 25600 / 22050] :=
  ⟨by decide, estimate_downbeats_stride4 _ _ _ _ (by decide),
    by norm_num [estimate_downbeats, framesToTime, List.range']⟩

/-- Claim C7: the boundary checks failures in a fixed order before any
decode: a missing file yields `notFound` (whatever the pipeline would do),
an extension outside the case-insensitive accepted set yields
`unsupportedFormat` (again independent of the pipeline, so no decode is
attempted), any failure of the decode/analysis pipeline is reported as a
single `analysisFailure`, and the only success shape is the fully assembled
`assembleResponse` — no partially-filled result exists. -/
theorem analyze_audio_error_routing (file : AudioFile)
    (pipeline : Except String ProviderOutput) :
    (file.present = false →
      analyze_audio file pipeline =
        .error (.notFound ("Audio file not found: " ++ file.path))) ∧
    (file.present = true →
      allowedExtensions.contains (lowerString file.suffix) = false →
      analyze_audio file pipeline =
        .error (.unsupportedFormat ("Unsupported audio format: " ++ file.suffix))) ∧
    (∀ e, file.present = true →
      allowedExtensions.contains (lowerString file.suffix) = true →
      pipeline = .error e →
      analyze_audio file pipeline =
        .error (.analysisFailure ("Analysis failed: " ++ e))) ∧
    (∀ p, file.present = true →
      allowedExtensions.contains (lowerString file.suffix) = true →
      pipeline = .ok p →
      analyze_audio file pipeline = .ok (assembleResponse p)) := by
  refine ⟨?_, ?_, ?_, ?_⟩ <;> intros <;> simp_all [analyze_audio]

theorem analyze_audio_error_routing_witness :
    analyze_audio ⟨false, "a.wav", ".wav"⟩ (.error "boom") =
      .error (.notFound ("Audio file not found: " ++ "a.wav")) ∧
    analyze_audio ⟨true, "a.xyz", ".xyz"⟩ (.ok ⟨1, [1], .scalar 120, [10]⟩) =
      .error (.unsupportedFormat ("Unsupported audio format: " ++ ".xyz")) ∧
    analyze_audio ⟨true, "a.WAV", ".WAV"⟩ (.error "decode failed") =
      .error (.analysisFailure ("Analysis failed: " ++ "decode failed")) ∧
    analyze_audio ⟨true, "a.wav", ".wav"⟩ (.ok ⟨1, [1], .scalar 120, [10]⟩) =
      .ok (assembleResponse ⟨1, [1], .scalar 120, [10]⟩) :=
  ⟨(analyze_audio_error_routing _ _).1 rfl,
    (analyze_audio_error_routing _ _).2.1 rfl (by decide),
    (analyze_audio_error_routing _ _).2.2.1 _ rfl (by decide) rfl,
    (analyze_audio_error_routing _ _).2.2.2 _ rfl (by decide) rfl⟩

/-- Claim C9: the downbeat estimator ignores its tempo argument — for any
two tempo values it returns the same sequence (the `bpm` parameter does not
occur in the body). -/
theorem estimate_downbeats_tempo_irrelevant (beats : List ℕ)
    (sr hop_length b1 b2 : ℚ) :
    estimate_downbeats beats b1 sr hop_length =
      estimate_downbeats beats b2 sr hop_length := rfl

end Chromox
